import Mathlib

/-
Verification of the advanced-vector container (src/advanced-vector/vector.h).

Shallow embedding of the element-lifecycle semantics of the templated
C++ class Vector<T>.  A buffer is a list of slots; a slot is `some v`
when it holds a live, constructed element of value `v`, and `none`
when it is raw uninitialized storage.  The buffer identity `bufId`
stands for the address of the allocation: it changes exactly where the
code allocates a new RawMemory and swaps it in, so two states with the
same `bufId` have the same element addresses.

Element-type capabilities are modelled by parameters:
  * `triv : Bool`   - whether T's destructor is trivial.  Under the
    C++17 object model, invoking the (pseudo-)destructor of a
    trivially-destructible object does NOT end its lifetime, so for
    `triv = true` a destroy call leaves the slot's value readable
    (as with `int`); for `triv = false` the slot becomes `none`.
  * `j : α`         - the indeterminate value produced by reading an
    unconstructed slot.  Theorems quantify over `j`, so a conclusion
    that does not mention `j` proves the result is independent of
    whatever garbage such a read yields.
  * `mk : Option α` - the result of constructing the new element from
    the forwarded args in Emplace: `some x` on success, `none` when
    the element's constructor throws.
  * `f : α → Option α` - the copy constructor used by the copying
    Relocate path: `none` models a throwing copy.
Destructor invocations on slots that hold no live object (undefined
behaviour in C++) are counted in the `ub` component of each result.
-/

namespace AdvVec

/-- State of a Vector<T>: the slots of the owned RawMemory buffer
(`slots.length` is the capacity), the logical element count `size`,
and the buffer identity `bufId` (a stand-in for the buffer address). -/
structure Vector (α : Type) where
  slots : List (Option α)
  size : Nat
  bufId : Nat
deriving Repr, DecidableEq

/-- Capacity of the vector: the number of slots of the owned buffer
(RawMemory::Capacity). -/
def Capacity (v : Vector α) : Nat := v.slots.length

/-- The slot at index `i`, `none` when out of range (a buffer never
has live elements outside its slots). -/
def slotAt : List (Option α) → Nat → Option α
  | [], _ => none
  | x :: _, 0 => x
  | _ :: s, n + 1 => slotAt s n

/-- Value read (move- or copy-construction source) from slot `i`:
the stored value when the slot is live, the indeterminate value `j`
when the slot is unconstructed. -/
def readD (j : α) (s : List (Option α)) (i : Nat) : α := (slotAt s i).getD j

/-- Values read from the slot range [a, a+n), in index order.  Models
the source side of std::copy_n / std::move / std::move_backward over a
range of slots. -/
def readRange (j : α) (s : List (Option α)) (a : Nat) : Nat → List α
  | 0 => []
  | n + 1 => readD j s a :: readRange j s (a + 1) n

/-- Writes the values `xs` into consecutive slots starting at `a`.
Together with `readRange` on the pre-state this is the net effect of
the std copy/move algorithms: std::move shifting left reads each
source slot before overwriting it (destination index is below the
source index), and std::move_backward shifting right proceeds
back-to-front, so both read only pre-state values. -/
def setRange : List (Option α) → Nat → List α → List (Option α)
  | s, _, [] => s
  | s, a, x :: xs => setRange (s.set a (some x)) (a + 1) xs

/-- Models std::destroy_at on slot `i`.  On a live slot: for a
non-trivial destructor the slot becomes unconstructed; for a trivial
destructor the C++17 lifetime (and the stored bytes) persist.  On a
slot with no live object the call is undefined behaviour; the state is
left as is and the event is counted (second component). -/
def destroyAt (triv : Bool) (s : List (Option α)) (i : Nat) : List (Option α) × Nat :=
  match slotAt s i with
  | none => (s, 1)
  | some _ => (if triv then s else s.set i none, 0)

/-- Models std::destroy_n on the slot range [a, a+n): destroy each
slot in index order, accumulating the count of destructor calls on
non-live slots. -/
def destroyRange (triv : Bool) (s : List (Option α)) (a : Nat) : Nat → List (Option α) × Nat
  | 0 => (s, 0)
  | n + 1 =>
    let d := destroyAt triv s a
    let r := destroyRange triv d.1 (a + 1) n
    (r.1, d.2 + r.2)

/-- Number of unconstructed slots in a slot list (used to count the
destructor-on-dead-slot events of a std::destroy_n sweep over a range
that is wholesale discarded with its buffer). -/
def countNone (s : List (Option α)) : Nat := s.countP (fun o => o.isNone)

/-- Models the copying branch of Vector::Relocate, i.e.
std::uninitialized_copy_n with copy constructor `f`: elements are
copy-constructed in order; if one copy throws (`f x = none`) the
already-constructed copies are destroyed again and the failure
propagates (`none`). -/
def uninitCopyF (f : α → Option α) : List α → Option (List α)
  | [] => some []
  | x :: xs =>
    match f x with
    | none => none
    | some y =>
      match uninitCopyF f xs with
      | none => none
      | some ys => some (y :: ys)

/-- Class invariant of Vector<T>: size never exceeds capacity and the
slots [0, size) hold live, constructed elements. -/
def WF (v : Vector α) : Prop :=
  v.size ≤ v.slots.length ∧ ∀ i, i < v.size → (slotAt v.slots i).isSome = true

instance (v : Vector α) : Decidable (WF v) := by
  unfold WF; exact instDecidableAnd

/-- Result of Vector::Emplace: whether an exception propagated, the
post-call vector state, the offset of the returned iterator from
begin(), and the number of destructor calls on non-live slots. -/
structure EmpOut (α : Type) where
  threw : Bool
  vec : Vector α
  ret : Nat
  ub : Nat
deriving Repr, DecidableEq

/-- Embedding of Vector::Emplace (vector.h lines 199-231); `dist` is
the offset of `pos` from cbegin().  With spare capacity: at the end
position the element is constructed in place inside a try block whose
catch runs std::destroy_at on the very slot whose construction failed,
then rethrows (the constexpr guard there is satisfied by every element
type that is copy-constructible or nothrow-move-constructible, which
covers all types considered here); at a mid position the code
constructs at end() from the slot data_[size_], runs
std::move_backward(data_ + dist, end(), next(end())), destroys the
slot data_ + size_, and constructs the new element at data_ + dist.
With no spare capacity it allocates a buffer of doubled capacity
(1 when empty), constructs the new element at offset dist, relocates
the front part [0, dist) and the tail part [dist, size) around it,
destroys the old elements, and swaps the buffer in; relocation here is
modelled for element types whose relocation does not throw. -/
def Emplace (triv : Bool) (j : α) (mk : Option α) (v : Vector α) (dist : Nat) : EmpOut α :=
  if v.size ≠ v.slots.length then
    if dist = v.size then
      match mk with
      | none =>
        let d := destroyAt triv v.slots dist
        ⟨true, { v with slots := d.1 }, 0, d.2⟩
      | some x =>
        ⟨false, { v with slots := v.slots.set dist (some x), size := v.size + 1 }, dist, 0⟩
    else
      let s1 := v.slots.set v.size (some (readD j v.slots v.size))
      let s2 := setRange s1 (dist + 1) (readRange j s1 dist (v.size - dist))
      let d := destroyAt triv s2 v.size
      match mk with
      | none => ⟨true, { v with slots := d.1 }, 0, d.2⟩
      | some x =>
        ⟨false, { v with slots := d.1.set dist (some x), size := v.size + 1 }, dist, d.2⟩
  else
    match mk with
    | none => ⟨true, v, 0, 0⟩
    | some x =>
      let newCap := if v.size > 0 then v.size * 2 else 1
      let front := readRange j v.slots 0 dist
      let tail := readRange j v.slots dist (v.size - dist)
      ⟨false,
        ⟨(front.map some) ++ [some x] ++ (tail.map some) ++
          List.replicate (newCap - (v.size + 1)) none,
         v.size + 1, v.bufId + 1⟩,
        dist, countNone (v.slots.take v.size)⟩

/-- Embedding of Vector::PushBack(const T&) / EmplaceBack, which call
Emplace(end(), ...), i.e. at offset size. -/
def PushBack (triv : Bool) (j : α) (x : α) (v : Vector α) : EmpOut α :=
  Emplace triv j (some x) v v.size

/-- Embedding of Vector::PopBack (vector.h lines 243-245):
std::destroy_at(data_ + (--size_)).  Returns the new state and the
count of destructor calls on non-live slots. -/
def PopBack (triv : Bool) (v : Vector α) : Vector α × Nat :=
  let d := destroyAt triv v.slots (v.size - 1)
  ({ v with slots := d.1, size := v.size - 1 }, d.2)

/-- Result of Vector::Erase: post-call state, offset of the returned
iterator from begin(), and destructor-on-dead-slot count. -/
structure EraOut (α : Type) where
  vec : Vector α
  ret : Nat
  ub : Nat
deriving Repr, DecidableEq

/-- Embedding of Vector::Erase (vector.h lines 247-258); `dist` is the
offset of `pos` from cbegin().  The elements after `pos` are shifted
one slot toward the beginning - with std::move when T is nothrow-move
constructible or not copy-constructible (`useMove = true`), otherwise
with std::copy; both assign the pre-state values of [dist+1, size)
onto [dist, size-1) front-to-back, which is their common net effect.
Then PopBack destroys the vacated trailing slot.  Returns
begin() + dist. -/
def Erase (triv useMove : Bool) (j : α) (v : Vector α) (dist : Nat) : EraOut α :=
  let s1 :=
    if useMove then setRange v.slots dist (readRange j v.slots (dist + 1) (v.size - 1 - dist))
    else setRange v.slots dist (readRange j v.slots (dist + 1) (v.size - 1 - dist))
  let p := PopBack triv { v with slots := s1 }
  ⟨p.1, dist, p.2⟩

/-- Embedding of Vector::Reserve (vector.h lines 158-166) with the
copying Relocate path (copy constructor `f`; the moving path of
Relocate is the instance where `f` never fails).  For `n` at most the
capacity the call returns immediately.  Otherwise a fresh buffer is
allocated and the live elements are relocated into it; if a copy
throws, std::uninitialized_copy_n destroys the copies it already made,
the fresh RawMemory frees its block, and the failure propagates before
any member of the vector was modified (first component `true`).  On
success the old elements are destroyed and the buffers swapped. -/
def Reserve (f : α → Option α) (j : α) (v : Vector α) (n : Nat) : Bool × Vector α × Nat :=
  if n ≤ v.slots.length then (false, v, 0)
  else
    match uninitCopyF f ((v.slots.take v.size).map (fun o => o.getD j)) with
    | none => (true, v, 0)
    | some ys =>
      (false,
       ⟨ys.map some ++ List.replicate (n - v.size) none, v.size, v.bufId + 1⟩,
       countNone (v.slots.take v.size))

/-- Embedding of the copy assignment operator (vector.h lines
116-135); `sameObj` models the address test `this != &rhs`.  When the
source is larger than the capacity, a full independent copy is built
and swapped in (the temporary then destroys the old elements and frees
the old buffer).  Otherwise storage is reused: std::copy_n assigns the
overlapping lead of length min(rhs.size, size); a shorter source has
the excess [rhs.size, size) destroyed with std::destroy_n, a longer
source has [size, rhs.size) copy-constructed at end() from
rhs.begin() + size; finally size becomes rhs.size. -/
def AssignCopy (triv : Bool) (j : α) (self rhs : Vector α) (sameObj : Bool) :
    Vector α × Nat :=
  if sameObj then (self, 0)
  else if rhs.size > self.slots.length then
    (⟨(readRange j rhs.slots 0 rhs.size).map some, rhs.size,
      self.bufId + rhs.bufId + 1⟩,
     countNone (self.slots.take self.size))
  else if self.size > rhs.size then
    (⟨(destroyRange triv (setRange self.slots 0 (readRange j rhs.slots 0 (min rhs.size self.size)))
        rhs.size (self.size - rhs.size)).1,
      rhs.size, self.bufId⟩,
     (destroyRange triv (setRange self.slots 0 (readRange j rhs.slots 0 (min rhs.size self.size)))
        rhs.size (self.size - rhs.size)).2)
  else
    (⟨setRange (setRange self.slots 0 (readRange j rhs.slots 0 (min rhs.size self.size)))
        self.size (readRange j rhs.slots self.size (rhs.size - self.size)),
      rhs.size, self.bufId⟩, 0)

/-- Embedding of the move assignment operator (vector.h lines
137-143); `sameObj` models the address test `this != &rhs`.  On
distinct objects the RawMemory move assignment transfers the source's
buffer and the source is left with a null buffer and size 0. -/
def AssignMove (self rhs : Vector α) (sameObj : Bool) : Vector α × Vector α :=
  if sameObj then (self, rhs)
  else (⟨rhs.slots, rhs.size, rhs.bufId⟩, ⟨[], 0, 0⟩)

/-! Concrete states used to settle the spec's scenarios.  Element type
Int with `triv = true` stands for the element type `int` of the spec's
concrete scenario (trivial destructor); `triv = false` states stand
for an element type with an observable (non-trivial) destructor. -/

/-- The empty vector the spec's concrete scenario starts from. -/
def c1Start : Vector Int := ⟨[], 0, 0⟩

/-- The scenario state after PushBack(1); `j` is the indeterminate
value of any unconstructed slot read. -/
def c1A (j : Int) : EmpOut Int := PushBack true j 1 c1Start

/-- The scenario state after PushBack(2). -/
def c1B (j : Int) : EmpOut Int := PushBack true j 2 (c1A j).vec

/-- The scenario state after PushBack(3). -/
def c1C (j : Int) : EmpOut Int := PushBack true j 3 (c1B j).vec

/-- The scenario state after Insert(begin() + 1, 9), which runs
Emplace at offset 1. -/
def c1D (j : Int) : EmpOut Int := Emplace true j (some 9) (c1C j).vec 1

/-- The scenario state after Erase(begin() + 2); `int` is nothrow
move constructible, so Erase takes its std::move branch. -/
def c1E (j : Int) : EraOut Int := Erase true true j (c1D j).vec 2

/-- The scenario state after the final PopBack(). -/
def c1F (j : Int) : Vector Int × Nat := PopBack true (c1E j).vec

/-- A vector of three live elements in a four-slot buffer, element
type with a non-trivial destructor: input for the mid-sequence
Emplace of claim C2. -/
def c2v : Vector Int := ⟨[some 10, some 20, some 30, none], 3, 0⟩

/-- A vector whose end-position Emplace with a throwing constructor
exercises the catch block of claim C4 (size 1, capacity 2). -/
def c4v : Vector Int := ⟨[some 5, none], 1, 7⟩

/-- A well-formed two-element vector with one spare slot: input for
the invariant check of claim C5. -/
def c5v : Vector Int := ⟨[some 1, some 2, none], 2, 0⟩

/-- A one-element vector with one spare slot, element type with a
non-trivial destructor: input for the Insert/Erase round trip of
claim C7. -/
def c7v : Vector Int := ⟨[some 4, none], 1, 0⟩

/-! Pointwise laws of the slot primitives. -/

theorem slotAt_set (s : List (Option α)) (a : Nat) (y : Option α) (i : Nat) :
    slotAt (s.set a y) i = if i = a ∧ a < s.length then y else slotAt s i := by
  induction s generalizing a i with
  | nil => simp [slotAt]
  | cons z s ih =>
    cases a with
    | zero =>
      cases i with
      | zero => simp [slotAt]
      | succ i => simp [slotAt]
    | succ a =>
      cases i with
      | zero => simp [slotAt]
      | succ i =>
        simp [slotAt, List.set, ih, Nat.succ_lt_succ_iff]

theorem length_setRange (xs : List α) :
    ∀ (s : List (Option α)) (a : Nat), (setRange s a xs).length = s.length := by
  induction xs with
  | nil => intro s a; rfl
  | cons x xs ih => intro s a; simp [setRange, ih, List.length_set]

theorem slotAt_setRange_low (xs : List α) :
    ∀ (s : List (Option α)) (a i : Nat), i < a → slotAt (setRange s a xs) i = slotAt s i := by
  induction xs with
  | nil => intro s a i _; rfl
  | cons x xs ih =>
    intro s a i hi
    rw [setRange, ih _ _ _ (Nat.lt_succ_of_lt hi), slotAt_set]
    simp [Nat.ne_of_lt hi]

theorem slotAt_setRange_high (xs : List α) :
    ∀ (s : List (Option α)) (a i : Nat), a + xs.length ≤ i →
      slotAt (setRange s a xs) i = slotAt s i := by
  induction xs with
  | nil => intro s a i _; rfl
  | cons x xs ih =>
    intro s a i hi
    have h1 : (a + 1) + xs.length ≤ i := by simp at hi; omega
    rw [setRange, ih _ _ _ h1, slotAt_set]
    have : i ≠ a := by simp at hi; omega
    simp [this]

theorem slotAt_setRange_mid (xs : List α) :
    ∀ (s : List (Option α)) (a k : Nat) (d : α), k < xs.length → a + k < s.length →
      slotAt (setRange s a xs) (a + k) = some (xs.getD k d) := by
  induction xs with
  | nil => intro s a k d hk _; simp at hk
  | cons x xs ih =>
    intro s a k d hk hlen
    cases k with
    | zero =>
      rw [setRange, slotAt_setRange_low xs _ _ _ (by omega)]
      rw [slotAt_set]
      simp at hlen ⊢
      omega
    | succ k =>
      have hk' : k < xs.length := by simpa using hk
      have hlen' : (a + 1) + k < (s.set a (some x)).length := by
        simp [List.length_set]; omega
      have := ih (s.set a (some x)) (a + 1) k d hk' hlen'
      rw [setRange]
      have harith : a + (k + 1) = (a + 1) + k := by omega
      rw [harith, this]
      simp

theorem length_readRange (j : α) :
    ∀ (s : List (Option α)) (a n : Nat), (readRange j s a n).length = n := by
  intro s a n
  induction n generalizing a with
  | zero => rfl
  | succ n ih => simp [readRange, ih]

theorem getD_readRange (j d : α) :
    ∀ (s : List (Option α)) (a n k : Nat), k < n →
      (readRange j s a n).getD k d = readD j s (a + k) := by
  intro s a n
  induction n generalizing a with
  | zero => intro k hk; omega
  | succ n ih =>
    intro k hk
    cases k with
    | zero => simp [readRange]
    | succ k =>
      rw [readRange]
      simp only [List.getD_cons_succ]
      rw [ih (a + 1) k (by omega)]
      congr 1
      omega

theorem readD_live (j : α) (s : List (Option α)) (i : Nat)
    (h : (slotAt s i).isSome = true) : some (readD j s i) = slotAt s i := by
  unfold readD
  cases hs : slotAt s i with
  | none => rw [hs] at h; simp at h
  | some x => simp

theorem destroyAt_fst_length (triv : Bool) (s : List (Option α)) (i : Nat) :
    ((destroyAt triv s i).1).length = s.length := by
  unfold destroyAt
  cases slotAt s i with
  | none => rfl
  | some x => cases triv <;> simp [List.length_set]

theorem slotAt_destroyAt_ne (triv : Bool) (s : List (Option α)) (a i : Nat) (h : i ≠ a) :
    slotAt (destroyAt triv s a).1 i = slotAt s i := by
  unfold destroyAt
  cases slotAt s a with
  | none => rfl
  | some x =>
    cases triv with
    | false => simp [slotAt_set, h]
    | true => rfl

theorem destroyAt_live (triv : Bool) (s : List (Option α)) (a : Nat)
    (h : (slotAt s a).isSome = true) : (destroyAt triv s a).2 = 0 := by
  unfold destroyAt
  cases hs : slotAt s a with
  | none => rw [hs] at h; simp at h
  | some x => cases triv <;> rfl

theorem destroyAt_false_live (s : List (Option α)) (a : Nat)
    (h : (slotAt s a).isSome = true) (ha : a < s.length) :
    slotAt (destroyAt false s a).1 a = none := by
  unfold destroyAt
  cases hs : slotAt s a with
  | none => rw [hs] at h; simp at h
  | some x => simp [slotAt_set, ha]

theorem destroyRange_fst_length (triv : Bool) :
    ∀ (n : Nat) (s : List (Option α)) (a : Nat),
      ((destroyRange triv s a n).1).length = s.length := by
  intro n
  induction n with
  | zero => intro s a; rfl
  | succ n ih =>
    intro s a
    show ((destroyRange triv (destroyAt triv s a).1 (a + 1) n).1).length = s.length
    rw [ih, destroyAt_fst_length]

theorem slotAt_destroyRange_out (triv : Bool) :
    ∀ (n : Nat) (s : List (Option α)) (a i : Nat), i < a ∨ a + n ≤ i →
      slotAt (destroyRange triv s a n).1 i = slotAt s i := by
  intro n
  induction n with
  | zero => intro s a i _; rfl
  | succ n ih =>
    intro s a i hi
    show slotAt (destroyRange triv (destroyAt triv s a).1 (a + 1) n).1 i = slotAt s i
    rw [ih _ _ _ (by omega), slotAt_destroyAt_ne triv s a i (by omega)]

theorem destroyRange_ub (triv : Bool) :
    ∀ (n : Nat) (s : List (Option α)) (a : Nat),
      (∀ k, k < n → (slotAt s (a + k)).isSome = true) →
      (destroyRange triv s a n).2 = 0 := by
  intro n
  induction n with
  | zero => intro s a _; rfl
  | succ n ih =>
    intro s a h
    show (destroyAt triv s a).2 + (destroyRange triv (destroyAt triv s a).1 (a + 1) n).2 = 0
    rw [destroyAt_live triv s a (by simpa using h 0 (by omega))]
    rw [ih _ _ (fun k hk => by
      rw [slotAt_destroyAt_ne triv s a _ (by omega)]
      have h2 : a + 1 + k = a + (k + 1) := by omega
      rw [h2]
      exact h (k + 1) (by omega))]

theorem slotAt_destroyRange_in :
    ∀ (n : Nat) (s : List (Option α)) (a k : Nat),
      (∀ m, m < n → (slotAt s (a + m)).isSome = true) →
      k < n → a + k < s.length →
      slotAt (destroyRange false s a n).1 (a + k) = none := by
  intro n
  induction n with
  | zero => intro s a k _ hk _; omega
  | succ n ih =>
    intro s a k h hk hlen
    show slotAt (destroyRange false (destroyAt false s a).1 (a + 1) n).1 (a + k) = none
    cases k with
    | zero =>
      rw [slotAt_destroyRange_out false n _ _ _ (by omega)]
      simpa using destroyAt_false_live s a (by simpa using h 0 (by omega)) (by omega)
    | succ k =>
      have harith : a + (k + 1) = (a + 1) + k := by omega
      rw [harith]
      apply ih
      · intro m hm
        rw [slotAt_destroyAt_ne false s a _ (by omega)]
        have h2 : a + 1 + m = a + (m + 1) := by omega
        rw [h2]
        exact h (m + 1) (by omega)
      · omega
      · rw [destroyAt_fst_length]; omega

theorem uninitCopyF_none (f : α → Option α) :
    ∀ xs : List α, (∃ x ∈ xs, f x = none) → uninitCopyF f xs = none := by
  intro xs
  induction xs with
  | nil => intro h; simp at h
  | cons x xs ih =>
    intro h
    unfold uninitCopyF
    rcases h with ⟨y, hy, hfy⟩
    rcases List.mem_cons.mp hy with heq | hmem
    · subst heq; rw [hfy]
    · cases hfx : f x with
      | none => rfl
      | some z => rw [ih ⟨y, hmem, hfy⟩]

/-! Theorems settling the claims. -/

/-- Claim C1: starting from an empty vector of ints, PushBack(1),
PushBack(2), PushBack(3) yield the sequence [1,2,3] with the capacity
growing 0, 1, 2, 4; Insert of 9 at begin()+1 yields [1,9,2,3]; Erase
at begin()+2 yields [1,9,3]; PopBack yields [1,9].  Quantifying over
`j` shows the result does not depend on the value the mid-insert reads
from the unconstructed slot data_[size_]; the values survive because
int's destructor is trivial (destroy_at does not wipe the bytes). -/
theorem c1_push_insert_erase_pop_scenario (j : Int) :
    Capacity c1Start = 0 ∧
    (c1A j).vec.slots.take (c1A j).vec.size = [some 1] ∧ Capacity (c1A j).vec = 1 ∧
    (c1B j).vec.slots.take (c1B j).vec.size = [some 1, some 2] ∧ Capacity (c1B j).vec = 2 ∧
    (c1C j).vec.slots.take (c1C j).vec.size = [some 1, some 2, some 3] ∧
    Capacity (c1C j).vec = 4 ∧
    (c1D j).vec.slots.take (c1D j).vec.size = [some 1, some 9, some 2, some 3] ∧
    (c1E j).vec.slots.take (c1E j).vec.size = [some 1, some 9, some 3] ∧
    (c1F j).1.slots.take (c1F j).1.size = [some 1, some 9] := by
  have hA : c1A j = ⟨false, ⟨[some 1], 1, 1⟩, 0, 0⟩ := rfl
  have hB : c1B j = ⟨false, ⟨[some 1, some 2], 2, 2⟩, 1, 0⟩ := by
    show PushBack true j 2 (c1A j).vec = _
    rw [hA]
    rfl
  have hC : c1C j = ⟨false, ⟨[some 1, some 2, some 3, none], 3, 3⟩, 2, 0⟩ := by
    show PushBack true j 3 (c1B j).vec = _
    rw [hB]
    rfl
  have hD : c1D j = ⟨false, ⟨[some 1, some 9, some 2, some 3], 4, 3⟩, 1, 0⟩ := by
    show Emplace true j (some 9) (c1C j).vec 1 = _
    rw [hC]
    rfl
  have hE : c1E j = ⟨⟨[some 1, some 9, some 3, some 3], 3, 3⟩, 2, 0⟩ := by
    show Erase true true j (c1D j).vec 2 = _
    rw [hD]
    rfl
  have hF : c1F j = (⟨[some 1, some 9, some 3, some 3], 2, 3⟩, 0) := by
    show PopBack true (c1E j).vec = _
    rw [hE]
    rfl
  rw [hA, hB, hC, hD, hE, hF]
  exact ⟨rfl, rfl, rfl, rfl, rfl, rfl, rfl, rfl, rfl, rfl⟩

/-- Claim C2 (code bug): with spare capacity, Emplace at a
mid-sequence position does not produce the old elements with the new
value inserted.  On [10, 20, 30] with capacity 4, Emplace(begin()+1, 9)
with a non-trivially-destructible element type yields live slots
[10, 9, 20] and a DEAD slot at index 3 (within the new size 4): the
code constructs at end() from the unconstructed slot data_[size_]
instead of the last element, and destroys data_ + size_ - which after
the shift holds the old last element 30 - instead of the vacated slot
at pos.  The claimed result [10, 9, 20, 30] is not produced. -/
theorem c2_emplace_mid_loses_last_element :
    Emplace false 0 (some 9) c2v 1 =
      ⟨false, ⟨[some 10, some 9, some 20, none], 4, 0⟩, 1, 0⟩ ∧
    c2v.slots.take c2v.size = [some 10, some 20, some 30] ∧
    (Emplace false 0 (some 9) c2v 1).vec.slots.take (Emplace false 0 (some 9) c2v 1).vec.size
      ≠ [some 10, some 9, some 20, some 30] := by
  decide

/-- Claim C3: if, during Reserve(n) with n above the capacity, the
copying relocation of some element into the new buffer fails (the
element's copy constructor throws, f x = none on a live value x), the
error propagates (first component true) and the vector is returned
exactly as it was: same slots, same size, same capacity, same bufId
(addresses), with no destructor run on a non-live slot. -/
theorem c3_reserve_strong_guarantee (f : α → Option α) (j : α) (v : Vector α) (n : Nat)
    (hn : v.slots.length < n)
    (hfail : ∃ x ∈ (v.slots.take v.size).map (fun o => o.getD j), f x = none) :
    Reserve f j v n = (true, v, 0) := by
  unfold Reserve
  rw [if_neg (by omega), uninitCopyF_none f _ hfail]

/-- Witness for C3: a two-element vector whose second element's copy
constructor throws; Reserve(4) propagates the failure and leaves the
vector untouched. -/
theorem c3_reserve_strong_guarantee_witness :
    Reserve (fun x : Int => if x = 5 then none else some x) 0
        (⟨[some 1, some 5], 2, 3⟩ : Vector Int) 4
      = (true, ⟨[some 1, some 5], 2, 3⟩, 0) :=
  c3_reserve_strong_guarantee _ _ _ _ (by decide) (by decide)

/-- Claim C4 (code bug): Emplace at the end position with spare
capacity whose element construction fails does propagate the error
and leaves slots, size, capacity and bufId unchanged with the failed
slot unconstructed - but it does NOT leave the slot untouched: the
catch block runs std::destroy_at on the very slot whose construction
failed, a destructor call on a never-constructed slot (the ub count is
1, where the claim requires 0). -/
theorem c4_emplace_end_failure_destroys_unconstructed_slot :
    Emplace false 0 none c4v 1 = ⟨true, ⟨[some 5, none], 1, 7⟩, 0, 1⟩ ∧
    ¬ (Emplace false 0 none c4v 1).ub = 0 := by
  decide

/-- Claim C5 (code bug): the class invariant "slots [0, size) hold
live elements" is not preserved by every public operation: for an
element type with a non-trivial destructor, Emplace(begin(), 7) on the
well-formed vector [1, 2] with capacity 3 returns normally with size 3
while slot 2 holds no live element (the mid-insert destroyed the slot
at the old end instead of the vacated one). -/
theorem c5_emplace_mid_breaks_class_invariant :
    WF c5v ∧ ¬ WF (Emplace false 0 (some 7) c5v 0).vec := by
  decide

/-- Claim C7 (code bug): the Insert-then-Erase round trip does not
restore the original sequence for every copyable, equality-comparable
element type.  For a non-trivially-destructible element type, on the
one-element vector [4] (capacity 2), Insert at position 0 followed by
Erase at position 0 yields [j] for the indeterminate value j (here 0)
instead of [4]: the buggy mid-insert destroyed the shifted original
element, and Erase then read the dead slot back. -/
theorem c7_insert_erase_roundtrip_fails :
    (Erase false true 0 (Emplace false 0 (some 8) c7v 0).vec 0).vec.slots.take
        (Erase false true 0 (Emplace false 0 (some 8) c7v 0).vec 0).vec.size = [some 0] ∧
    c7v.slots.take c7v.size = [some 4] ∧
    (Erase false true 0 (Emplace false 0 (some 8) c7v 0).vec 0).vec.slots.take
        (Erase false true 0 (Emplace false 0 (some 8) c7v 0).vec 0).vec.size
      ≠ c7v.slots.take c7v.size := by
  decide

/-- Claim C6: for any well-formed vector and any position dist with
dist < size, Erase(begin() + dist) shifts each subsequent element one
slot toward the beginning (the std::move and std::copy branches have
the same value effect), destroys the vacated trailing slot (for a
non-trivially-destructible element type slot size-1 holds no live
element afterwards; no destructor runs on a non-live slot), decrements
the size, keeps the buffer (capacity and bufId), and returns the
position dist. -/
theorem c6_erase_shifts_left_and_destroys_last (triv useMove : Bool) (j : α)
    (v : Vector α) (dist : Nat) (hwf : WF v) (hd : dist < v.size) :
    (Erase triv useMove j v dist).ret = dist ∧
    (Erase triv useMove j v dist).vec.size = v.size - 1 ∧
    Capacity (Erase triv useMove j v dist).vec = Capacity v ∧
    (Erase triv useMove j v dist).vec.bufId = v.bufId ∧
    (∀ k, k < dist → slotAt (Erase triv useMove j v dist).vec.slots k = slotAt v.slots k) ∧
    (∀ k, dist ≤ k → k + 1 < v.size →
      slotAt (Erase triv useMove j v dist).vec.slots k = slotAt v.slots (k + 1)) ∧
    (triv = false → slotAt (Erase triv useMove j v dist).vec.slots (v.size - 1) = none) ∧
    (Erase triv useMove j v dist).ub = 0 := by
  obtain ⟨hsz, hlive⟩ := hwf
  have hE : Erase triv useMove j v dist =
      ⟨⟨(destroyAt triv (setRange v.slots dist
            (readRange j v.slots (dist + 1) (v.size - 1 - dist))) (v.size - 1)).1,
        v.size - 1, v.bufId⟩, dist,
       (destroyAt triv (setRange v.slots dist
            (readRange j v.slots (dist + 1) (v.size - 1 - dist))) (v.size - 1)).2⟩ := by
    cases useMove <;> rfl
  set s1 := setRange v.slots dist (readRange j v.slots (dist + 1) (v.size - 1 - dist)) with hs1
  have hlen1 : s1.length = v.slots.length := length_setRange _ _ _
  have hlast : slotAt s1 (v.size - 1) = slotAt v.slots (v.size - 1) := by
    apply slotAt_setRange_high
    rw [length_readRange]
    omega
  have hlastlive : (slotAt s1 (v.size - 1)).isSome = true := by
    rw [hlast]
    exact hlive _ (by omega)
  rw [hE]
  refine ⟨rfl, rfl, ?_, rfl, ?_, ?_, ?_, ?_⟩
  · show ((destroyAt triv s1 (v.size - 1)).1).length = v.slots.length
    rw [destroyAt_fst_length, hlen1]
  · intro k hk
    show slotAt (destroyAt triv s1 (v.size - 1)).1 k = slotAt v.slots k
    rw [slotAt_destroyAt_ne _ _ _ _ (by omega)]
    exact slotAt_setRange_low _ _ _ _ hk
  · intro k hk hk1
    show slotAt (destroyAt triv s1 (v.size - 1)).1 k = slotAt v.slots (k + 1)
    rw [slotAt_destroyAt_ne _ _ _ _ (by omega)]
    have hmid := slotAt_setRange_mid (readRange j v.slots (dist + 1) (v.size - 1 - dist))
      v.slots dist (k - dist) j (by rw [length_readRange]; omega) (by omega)
    rw [getD_readRange j j _ _ _ _ (by omega)] at hmid
    have e1 : dist + (k - dist) = k := by omega
    have e2 : dist + 1 + (k - dist) = k + 1 := by omega
    rw [e1, e2] at hmid
    rw [hmid]
    exact readD_live j v.slots (k + 1) (hlive _ (by omega))
  · intro htr
    subst htr
    show slotAt (destroyAt false s1 (v.size - 1)).1 (v.size - 1) = none
    exact destroyAt_false_live s1 _ hlastlive (by rw [hlen1]; omega)
  · show (destroyAt triv s1 (v.size - 1)).2 = 0
    exact destroyAt_live triv s1 _ hlastlive

/-- Witness for C6: erasing position 1 of the well-formed vector
[11, 22, 33] (non-trivial destructor, move branch) returns position 1,
yields size 2 and leaves slot 2 unconstructed. -/
theorem c6_erase_witness :
    (Erase false true (0 : Int) ⟨[some 11, some 22, some 33], 3, 4⟩ 1).ret = 1 ∧
    (Erase false true (0 : Int) ⟨[some 11, some 22, some 33], 3, 4⟩ 1).vec.size = 2 ∧
    slotAt (Erase false true (0 : Int) ⟨[some 11, some 22, some 33], 3, 4⟩ 1).vec.slots 2
      = none :=
  have h := c6_erase_shifts_left_and_destroys_last false true (0 : Int)
    ⟨[some 11, some 22, some 33], 3, 4⟩ 1 (by decide) (by decide)
  ⟨h.1, h.2.1, h.2.2.2.2.2.2.1 rfl⟩

/-- Claim C8: copy assignment a = b with distinct objects and b.size
at most a's capacity reuses a's storage: the buffer identity and the
capacity are kept, the result holds exactly b's elements [0, b.size)
with size b.size, a shorter source leaves the excess trailing slots
[b.size, a.size) destroyed (for a non-trivially-destructible element
type: no live element there), no destructor runs on a non-live slot,
and only b's live elements are read - the conclusion never mentions
the indeterminate value j, so no out-of-bounds read feeds the
result. -/
theorem c8_copy_assign_reuses_storage (triv : Bool) (j : α) (a b : Vector α)
    (hwa : WF a) (hwb : WF b) (hcap : b.size ≤ a.slots.length) :
    (AssignCopy triv j a b false).1.size = b.size ∧
    Capacity (AssignCopy triv j a b false).1 = Capacity a ∧
    (AssignCopy triv j a b false).1.bufId = a.bufId ∧
    (∀ k, k < b.size → slotAt (AssignCopy triv j a b false).1.slots k = slotAt b.slots k) ∧
    (triv = false → ∀ k, b.size ≤ k → k < a.size →
      slotAt (AssignCopy triv j a b false).1.slots k = none) ∧
    (AssignCopy triv j a b false).2 = 0 := by
  obtain ⟨hsa, hla⟩ := hwa
  obtain ⟨hsb, hlb⟩ := hwb
  have hncap : ¬ b.size > a.slots.length := by omega
  by_cases hc : a.size > b.size
  · have hm : min b.size a.size = b.size := by omega
    have hA : AssignCopy triv j a b false =
        (⟨(destroyRange triv (setRange a.slots 0 (readRange j b.slots 0 b.size))
            b.size (a.size - b.size)).1,
          b.size, a.bufId⟩,
         (destroyRange triv (setRange a.slots 0 (readRange j b.slots 0 b.size))
            b.size (a.size - b.size)).2) := by
      unfold AssignCopy
      rw [if_neg (by simp), if_neg hncap, if_pos hc, hm]
    set s1 := setRange a.slots 0 (readRange j b.slots 0 b.size) with hs1
    have hlen1 : s1.length = a.slots.length := length_setRange _ _ _
    have hliveTail : ∀ m, m < a.size - b.size → (slotAt s1 (b.size + m)).isSome = true := by
      intro m hm2
      have := slotAt_setRange_high (readRange j b.slots 0 b.size) a.slots 0 (b.size + m)
        (by rw [length_readRange]; omega)
      rw [this]
      exact hla _ (by omega)
    have hlead : ∀ k, k < b.size → slotAt s1 k = slotAt b.slots k := by
      intro k hk
      have hmid := slotAt_setRange_mid (readRange j b.slots 0 b.size) a.slots 0 k j
        (by rw [length_readRange]; omega) (by omega)
      rw [getD_readRange j j _ _ _ _ (by omega)] at hmid
      rw [← hs1] at hmid
      simp only [Nat.zero_add] at hmid
      rw [hmid]
      exact readD_live j b.slots k (hlb _ hk)
    rw [hA]
    refine ⟨rfl, ?_, rfl, ?_, ?_, ?_⟩
    · show ((destroyRange triv s1 b.size (a.size - b.size)).1).length = a.slots.length
      rw [destroyRange_fst_length, hlen1]
    · intro k hk
      show slotAt (destroyRange triv s1 b.size (a.size - b.size)).1 k = slotAt b.slots k
      rw [slotAt_destroyRange_out triv _ _ _ _ (Or.inl hk)]
      exact hlead k hk
    · intro htr k hk1 hk2
      subst htr
      show slotAt (destroyRange false s1 b.size (a.size - b.size)).1 k = none
      have e1 : k = b.size + (k - b.size) := by omega
      rw [e1]
      exact slotAt_destroyRange_in _ _ _ _ hliveTail (by omega) (by rw [hlen1]; omega)
    · show (destroyRange triv s1 b.size (a.size - b.size)).2 = 0
      exact destroyRange_ub triv _ _ _ hliveTail
  · have hm : min b.size a.size = a.size := by omega
    have hA : AssignCopy triv j a b false =
        (⟨setRange (setRange a.slots 0 (readRange j b.slots 0 a.size))
            a.size (readRange j b.slots a.size (b.size - a.size)),
          b.size, a.bufId⟩, 0) := by
      unfold AssignCopy
      rw [if_neg (by simp), if_neg hncap, if_neg hc, hm]
    set s1 := setRange a.slots 0 (readRange j b.slots 0 a.size) with hs1
    have hlen1 : s1.length = a.slots.length := length_setRange _ _ _
    rw [hA]
    refine ⟨rfl, ?_, rfl, ?_, ?_, rfl⟩
    · show (setRange s1 a.size (readRange j b.slots a.size (b.size - a.size))).length
        = a.slots.length
      rw [length_setRange, hlen1]
    · intro k hk
      show slotAt (setRange s1 a.size (readRange j b.slots a.size (b.size - a.size))) k
        = slotAt b.slots k
      by_cases hk2 : k < a.size
      · rw [slotAt_setRange_low _ _ _ _ hk2]
        have hmid := slotAt_setRange_mid (readRange j b.slots 0 a.size) a.slots 0 k j
          (by rw [length_readRange]; omega) (by omega)
        rw [getD_readRange j j _ _ _ _ (by omega)] at hmid
        rw [← hs1] at hmid
        simp only [Nat.zero_add] at hmid
        rw [hmid]
        exact readD_live j b.slots k (hlb _ hk)
      · have hmid := slotAt_setRange_mid (readRange j b.slots a.size (b.size - a.size))
          s1 a.size (k - a.size) j (by rw [length_readRange]; omega)
          (by rw [hlen1]; omega)
        rw [getD_readRange j j _ _ _ _ (by omega)] at hmid
        have e1 : a.size + (k - a.size) = k := by omega
        rw [e1] at hmid
        rw [hmid]
        exact readD_live j b.slots k (hlb _ hk)
    · intro htr k hk1 hk2
      omega

/-- Witness for C8: assigning the two-element vector [8, 9] into the
well-formed five-element vector [1, 2, 3, 4, 5] (non-trivial
destructor) reuses the storage: size becomes 2, slot 0 holds 8, the
excess slot 2 is destroyed, and no destructor ran on a non-live
slot. -/
theorem c8_copy_assign_witness :
    (AssignCopy false (0 : Int) ⟨[some 1, some 2, some 3, some 4, some 5], 5, 0⟩
        ⟨[some 8, some 9], 2, 1⟩ false).1.size = 2 ∧
    slotAt (AssignCopy false (0 : Int) ⟨[some 1, some 2, some 3, some 4, some 5], 5, 0⟩
        ⟨[some 8, some 9], 2, 1⟩ false).1.slots 0 = some 8 ∧
    slotAt (AssignCopy false (0 : Int) ⟨[some 1, some 2, some 3, some 4, some 5], 5, 0⟩
        ⟨[some 8, some 9], 2, 1⟩ false).1.slots 2 = none ∧
    (AssignCopy false (0 : Int) ⟨[some 1, some 2, some 3, some 4, some 5], 5, 0⟩
        ⟨[some 8, some 9], 2, 1⟩ false).2 = 0 :=
  have h := c8_copy_assign_reuses_storage false (0 : Int)
    ⟨[some 1, some 2, some 3, some 4, some 5], 5, 0⟩ ⟨[some 8, some 9], 2, 1⟩
    (by decide) (by decide) (by decide)
  ⟨h.1, h.2.2.2.1 0 (by decide), h.2.2.2.2.1 rfl 2 (by decide) (by decide), h.2.2.2.2.2⟩

/-- Claim C9: Reserve(n) with n at most the current capacity is a
no-op: no exception, no destructor events, and the returned state is
the argument itself - same size, capacity, values and bufId
(addresses), so no reallocation or relocation occurred. -/
theorem c9_reserve_noop_below_capacity (f : α → Option α) (j : α) (v : Vector α) (n : Nat)
    (h : n ≤ v.slots.length) : Reserve f j v n = (false, v, 0) := by
  unfold Reserve
  rw [if_pos h]

/-- Witness for C9: Reserve(1) on a vector of capacity 2 returns it
unchanged. -/
theorem c9_reserve_noop_below_capacity_witness :
    Reserve (fun x : Int => some x) 0 (⟨[some 2, some 3], 2, 5⟩ : Vector Int) 1
      = (false, ⟨[some 2, some 3], 2, 5⟩, 0) :=
  c9_reserve_noop_below_capacity _ _ _ _ (by decide)

/-- Claim C10: self copy-assignment and self move-assignment are
no-ops: with the address test this == &rhs detecting the same object,
both operators skip their body, so v = v leaves v unchanged (same
slots, size, capacity, bufId) and self move-assignment does not empty
the vector. -/
theorem c10_self_assignment_noop (triv : Bool) (j : α) (v : Vector α) :
    AssignCopy triv j v v true = (v, 0) ∧ AssignMove v v true = (v, v) :=
  ⟨rfl, rfl⟩

end AdvVec
